import Mathlib

/-!
Verification of the RouteUp routing core: a shallow embedding in Lean 4 of
the chunking and optimization-orchestration logic found in
`routeup/ml/route_optimizer.py`, `routeup/data/client/utils.py` and
`routeup/data/client/gmaps.py`, together with theorems about the embedded
definitions. External capabilities (the OR-Tools solver and the Google Maps
HTTP API) are modelled as abstract oracles, exactly at the boundary the
source code consumes them.
-/

/-- Mode of the optimizer, from `routeup.core.config.enums.RouteMode`. -/
inductive RouteMode where
  | inbound
  | outbound
deriving DecidableEq, Repr

/-- Row-0 assignment `time_matrix[0, :] = -self.slack_time` from
`RouteOptimizer._create_data_model` (INBOUND branch): every entry of row 0 is
overwritten with `-slack_time`; all other rows are untouched. -/
def setDepotRow (slack : Int) (m : List (List Int)) : List (List Int) :=
  match m with
  | [] => []
  | r :: rs => (r.map fun _ => -slack) :: rs

/-- Column-0 assignment `time_matrix[:, 0] = -self.slack_time` from
`RouteOptimizer._create_data_model` (OUTBOUND branch): the first entry of
every row is overwritten with `-slack_time`; the remaining entries are
untouched. -/
def setDepotCol (slack : Int) (m : List (List Int)) : List (List Int) :=
  m.map fun r =>
    match r with
    | [] => []
    | _ :: xs => -slack :: xs

/-- Matrix transformation performed by `RouteOptimizer._create_data_model` on
`self.time_matrix`: INBOUND adjusts row 0, OUTBOUND adjusts column 0. -/
def createDataModelMatrix (mode : RouteMode) (slack : Int)
    (m : List (List Int)) : List (List Int) :=
  match mode with
  | RouteMode.inbound => setDepotRow slack m
  | RouteMode.outbound => setDepotCol slack m

lemma getD_map_of_lt {α β : Type} (g : α → β) (l : List α) (i : Nat) (d : β)
    (d' : α) (h : i < l.length) : (l.map g).getD i d = g (l.getD i d') := by
  induction l generalizing i with
  | nil => simp at h
  | cons a t ih =>
    cases i with
    | zero => rfl
    | succ k => simpa using ih k (by simpa using h)

/-- C1: after model construction the depot axis of the time matrix equals
`-slack_time`: in INBOUND mode every entry of row 0 equals `-slack_time`
(rows other than row 0 unchanged); in OUTBOUND mode every row's entry 0
equals `-slack_time` (columns other than column 0 unchanged); consequently
the transit cost fed to the solver, matrix entry plus `slack_time`, is
exactly `0` along the depot axis. -/
theorem depot_axis_equals_neg_slack (slack : Int) (m : List (List Int)) :
    (∀ j, j < (m.headD []).length →
      ((createDataModelMatrix RouteMode.inbound slack m).headD []).getD j 0 = -slack ∧
      ((createDataModelMatrix RouteMode.inbound slack m).headD []).getD j 0 + slack = 0) ∧
    (∀ i, i ≠ 0 →
      (createDataModelMatrix RouteMode.inbound slack m).getD i [] = m.getD i []) ∧
    (∀ i, i < m.length → m.getD i [] ≠ [] →
      ((createDataModelMatrix RouteMode.outbound slack m).getD i []).headD 0 = -slack ∧
      ((createDataModelMatrix RouteMode.outbound slack m).getD i []).headD 0 + slack = 0) ∧
    (∀ i j, j ≠ 0 →
      ((createDataModelMatrix RouteMode.outbound slack m).getD i []).getD j 0 =
        (m.getD i []).getD j 0) := by
  refine ⟨?_, ?_, ?_, ?_⟩
  · intro j hj
    cases m with
    | nil => simp at hj
    | cons r rs =>
      have : ((createDataModelMatrix RouteMode.inbound slack (r :: rs)).headD []) =
          r.map fun _ => -slack := rfl
      rw [this, getD_map_of_lt _ r j 0 0 (by simpa using hj)]
      exact ⟨rfl, by omega⟩
  · intro i hi
    cases m with
    | nil => rfl
    | cons r rs =>
      cases i with
      | zero => exact absurd rfl hi
      | succ k => rfl
  · intro i hi hne
    have hrow : (createDataModelMatrix RouteMode.outbound slack m).getD i [] =
        (match m.getD i [] with
          | [] => []
          | _ :: xs => -slack :: xs) :=
      getD_map_of_lt _ m i [] [] hi
    cases hr : m.getD i [] with
    | nil => exact absurd hr hne
    | cons a xs =>
      rw [hrow, hr]
      refine ⟨rfl, ?_⟩
      show -slack + slack = 0
      omega
  · intro i j hj
    by_cases hi : i < m.length
    · have hrow : (createDataModelMatrix RouteMode.outbound slack m).getD i [] =
          (match m.getD i [] with
            | [] => []
            | _ :: xs => -slack :: xs) :=
        getD_map_of_lt _ m i [] [] hi
      rw [hrow]
      cases hr : m.getD i [] with
      | nil => rfl
      | cons a xs =>
        cases j with
        | zero => exact absurd rfl hj
        | succ k => rfl
    · have h1 : (createDataModelMatrix RouteMode.outbound slack m).getD i [] = [] := by
        apply List.getD_eq_default
        simpa [createDataModelMatrix, setDepotCol] using Nat.le_of_not_lt hi
      have h2 : m.getD i [] = [] := List.getD_eq_default _ _ (Nat.le_of_not_lt hi)
      rw [h1, h2]

/-- Witness for C1 at slack_time 5 on the matrix [[1, 2], [3, 4]]. -/
theorem depot_axis_equals_neg_slack_witness :
    ((createDataModelMatrix RouteMode.inbound 5 [[1, 2], [3, 4]]).headD []).getD 1 0 = -5 ∧
    (createDataModelMatrix RouteMode.inbound 5 [[1, 2], [3, 4]]).getD 1 [] = [3, 4] ∧
    ((createDataModelMatrix RouteMode.outbound 5 [[1, 2], [3, 4]]).getD 1 []).headD 0 + 5 = 0 ∧
    ((createDataModelMatrix RouteMode.outbound 5 [[1, 2], [3, 4]]).getD 1 []).getD 1 0 = 4 :=
  ⟨((depot_axis_equals_neg_slack 5 [[1, 2], [3, 4]]).1 1 (by decide)).1,
   (depot_axis_equals_neg_slack 5 [[1, 2], [3, 4]]).2.1 1 (by decide),
   ((depot_axis_equals_neg_slack 5 [[1, 2], [3, 4]]).2.2.1 1 (by decide) (by decide)).2,
   (depot_axis_equals_neg_slack 5 [[1, 2], [3, 4]]).2.2.2 1 1 (by decide)⟩

/-- Heap view of the two matrix objects involved in `RouteOptimizer.__init__`:
the array object the caller passed inside `RouteOptimizerInput`, and the
optimizer's own `self.time_matrix`. `np.array(...)` copies its argument by
default, so the optimizer's matrix is a distinct object holding initially
equal contents. -/
structure MatrixHeap where
  caller : List (List Int)
  optimizer : List (List Int)
deriving DecidableEq, Repr

/-- State after `self.time_matrix = np.array(route_optimizer_input.time_matrix)`
in `RouteOptimizer.__init__`: a fresh copy of the caller's matrix. -/
def initOptimizerHeap (inputMatrix : List (List Int)) : MatrixHeap :=
  { caller := inputMatrix, optimizer := inputMatrix }

/-- Effect of one `_create_data_model` call on the two matrix objects: the
depot-axis assignment mutates `self.time_matrix` in place; the caller's
array is not touched. -/
def rebuildModelHeap (mode : RouteMode) (slack : Int) (h : MatrixHeap) : MatrixHeap :=
  { h with optimizer := createDataModelMatrix mode slack h.optimizer }

/-- Effect of `n` successive `_create_data_model` calls (the constructor call
plus `n - 1` escalation rebuilds). -/
def rebuildModelHeapIter (mode : RouteMode) (slack : Int) : Nat → MatrixHeap → MatrixHeap
  | 0, h => h
  | n + 1, h => rebuildModelHeapIter mode slack n (rebuildModelHeap mode slack h)

lemma createDataModelMatrix_idem (mode : RouteMode) (slack : Int)
    (m : List (List Int)) :
    createDataModelMatrix mode slack (createDataModelMatrix mode slack m) =
      createDataModelMatrix mode slack m := by
  cases mode with
  | inbound =>
    cases m with
    | nil => rfl
    | cons r rs =>
      show (((r.map fun _ => -slack).map fun _ => -slack) :: rs) = _
      rw [List.map_map]
      rfl
  | outbound =>
    show List.map _ (List.map _ m) = _
    rw [List.map_map]
    apply List.map_congr_left
    intro r _
    cases r <;> rfl

lemma rebuildModelHeapIter_caller (mode : RouteMode) (slack : Int) (n : Nat) :
    ∀ h : MatrixHeap, (rebuildModelHeapIter mode slack n h).caller = h.caller := by
  induction n with
  | zero => intro h; rfl
  | succ k ih =>
    intro h
    show (rebuildModelHeapIter mode slack k (rebuildModelHeap mode slack h)).caller = _
    rw [ih]
    rfl

lemma rebuildModelHeapIter_optimizer (mode : RouteMode) (slack : Int) (n : Nat) :
    ∀ h : MatrixHeap, (rebuildModelHeapIter mode slack (n + 1) h).optimizer =
      createDataModelMatrix mode slack h.optimizer := by
  induction n with
  | zero => intro h; rfl
  | succ k ih =>
    intro h
    show (rebuildModelHeapIter mode slack (k + 1) (rebuildModelHeap mode slack h)).optimizer = _
    rw [ih]
    exact createDataModelMatrix_idem mode slack h.optimizer

/-- C8 counterexample: constructing the optimizer on the matrix
[[1, 2], [3, 4]] with slack_time 5 in INBOUND mode adjusts the optimizer's
internal copy, while the matrix object the caller passed in still holds the
original entries — the depot adjustment is not visible to the caller through
the object it passed in, because `np.array` copies. -/
theorem matrix_mutation_not_visible_to_caller :
    (rebuildModelHeap RouteMode.inbound 5 (initOptimizerHeap [[1, 2], [3, 4]])).caller
        = [[1, 2], [3, 4]] ∧
    (rebuildModelHeap RouteMode.inbound 5 (initOptimizerHeap [[1, 2], [3, 4]])).optimizer
        = [[-5, -5], [3, 4]] ∧
    (rebuildModelHeap RouteMode.inbound 5 (initOptimizerHeap [[1, 2], [3, 4]])).caller ≠
      (rebuildModelHeap RouteMode.inbound 5 (initOptimizerHeap [[1, 2], [3, 4]])).optimizer := by
  exact ⟨rfl, rfl, by decide⟩

/-- C8 (amended): the model builder mutates the optimizer's internal copy of
the time matrix (made by `np.array` at construction) in place, leaving the
caller's matrix object unchanged; the depot-axis assignment is re-executed on
every model rebuild but is idempotent, so after any positive number of
rebuilds the matrix equals the once-adjusted matrix. -/
theorem matrix_adjustment_internal_and_idempotent (mode : RouteMode) (slack : Int)
    (inputMatrix : List (List Int)) (n : Nat) :
    (rebuildModelHeapIter mode slack n (initOptimizerHeap inputMatrix)).caller = inputMatrix ∧
    (1 ≤ n →
      (rebuildModelHeapIter mode slack n (initOptimizerHeap inputMatrix)).optimizer =
        createDataModelMatrix mode slack inputMatrix) := by
  constructor
  · exact rebuildModelHeapIter_caller mode slack n _
  · intro hn
    obtain ⟨k, rfl⟩ : ∃ k, n = k + 1 := ⟨n - 1, by omega⟩
    exact rebuildModelHeapIter_optimizer mode slack k _

/-- Witness for the amended C8 at three rebuilds of a concrete INBOUND model. -/
theorem matrix_adjustment_internal_and_idempotent_witness :
    (rebuildModelHeapIter RouteMode.inbound 5 3 (initOptimizerHeap [[1, 2], [3, 4]])).caller
        = [[1, 2], [3, 4]] ∧
    (rebuildModelHeapIter RouteMode.inbound 5 3 (initOptimizerHeap [[1, 2], [3, 4]])).optimizer
        = createDataModelMatrix RouteMode.inbound 5 [[1, 2], [3, 4]] :=
  ⟨(matrix_adjustment_internal_and_idempotent RouteMode.inbound 5 [[1, 2], [3, 4]] 3).1,
   (matrix_adjustment_internal_and_idempotent RouteMode.inbound 5 [[1, 2], [3, 4]] 3).2
     (by decide)⟩

/-- Rectangle of matrix indices handled by `slice_matrix`
(`routeup/data/client/utils.py`): rows `[start_row, end_row)` by columns
`[start_col, end_col)`, mirroring the dict the Python function returns. -/
structure MatrixSlice where
  start_row : Int
  end_row : Int
  start_col : Int
  end_col : Int
deriving DecidableEq, Repr

/-- Fueled embedding of the recursive `slice_matrix` function. `none` means
the fuel ran out before the Python recursion returned (the Python function
does not terminate on every input — see the `max_elements = 0` part of the
termination theorem). Python's floor division `//` is `Int.fdiv`. -/
def sliceMatrixF : Nat → Int → Int → Int → Int → Int → Option (List MatrixSlice)
  | 0, _, _, _, _, _ => none
  | fuel + 1, start_row, end_row, start_col, end_col, max_elements =>
    let dimension_1 := end_row - start_row
    let dimension_2 := end_col - start_col
    if dimension_1 * dimension_2 ≤ max_elements then
      some [⟨start_row, end_row, start_col, end_col⟩]
    else
      let max_length := max dimension_1 dimension_2
      let new_length := Int.fdiv max_length 2
      if dimension_1 = max_length then
        match sliceMatrixF fuel start_row (start_row + new_length) start_col end_col max_elements,
            sliceMatrixF fuel (start_row + new_length) end_row start_col end_col max_elements with
        | some top, some down => some (top ++ down)
        | _, _ => none
      else
        match sliceMatrixF fuel start_row end_row start_col (start_col + new_length) max_elements,
            sliceMatrixF fuel start_row end_row (start_col + new_length) end_col max_elements with
        | some left, some right => some (left ++ right)
        | _, _ => none

/-- Cell membership: cell `(i, j)` lies in the rectangle `r`. -/
def inSlice (r : MatrixSlice) (i j : Int) : Bool :=
  decide (r.start_row ≤ i) && decide (i < r.end_row) &&
    decide (r.start_col ≤ j) && decide (j < r.end_col)

lemma fdiv_two_eq_ediv (d : Int) : Int.fdiv d 2 = d / 2 :=
  Int.fdiv_eq_ediv d (by omega)

lemma count_split_rows (sr er sc ec m i j : Int)
    (hm : (sr ≤ m ∧ m ≤ er) ∨ (er ≤ m ∧ m ≤ sr)) :
    ((if inSlice ⟨sr, m, sc, ec⟩ i j then 1 else 0) +
      (if inSlice ⟨m, er, sc, ec⟩ i j then 1 else 0) : Nat) =
      if inSlice ⟨sr, er, sc, ec⟩ i j then 1 else 0 := by
  simp only [inSlice, Bool.and_eq_true, decide_eq_true_eq]
  rcases hm with ⟨h1, h2⟩ | ⟨h1, h2⟩ <;> (split_ifs <;> omega)

lemma count_split_cols (sr er sc ec m i j : Int)
    (hm : (sc ≤ m ∧ m ≤ ec) ∨ (ec ≤ m ∧ m ≤ sc)) :
    ((if inSlice ⟨sr, er, sc, m⟩ i j then 1 else 0) +
      (if inSlice ⟨sr, er, m, ec⟩ i j then 1 else 0) : Nat) =
      if inSlice ⟨sr, er, sc, ec⟩ i j then 1 else 0 := by
  simp only [inSlice, Bool.and_eq_true, decide_eq_true_eq]
  rcases hm with ⟨h1, h2⟩ | ⟨h1, h2⟩ <;> (split_ifs <;> omega)

lemma sliceMatrixF_countP (fuel : Nat) :
    ∀ (sr er sc ec maxE : Int) (l : List MatrixSlice),
      sliceMatrixF fuel sr er sc ec maxE = some l →
      ∀ i j : Int, (l.countP fun r => inSlice r i j) =
        if inSlice ⟨sr, er, sc, ec⟩ i j then 1 else 0 := by
  induction fuel with
  | zero =>
    intro sr er sc ec maxE l h
    exact absurd h (by simp [sliceMatrixF])
  | succ n ih =>
    intro sr er sc ec maxE l h i j
    simp only [sliceMatrixF] at h
    split at h
    next hbase =>
      injection h with h
      subst h
      simp only [List.countP_cons, List.countP_nil, Nat.zero_add]
    next hbase =>
      split at h
      next hrow =>
        rcases htop : sliceMatrixF n sr (sr + Int.fdiv (max (er - sr) (ec - sc)) 2)
            sc ec maxE with _ | top
        · rw [htop] at h
          cases sliceMatrixF n (sr + Int.fdiv (max (er - sr) (ec - sc)) 2) er
              sc ec maxE <;> exact absurd h (by simp)
        · rcases hdown : sliceMatrixF n (sr + Int.fdiv (max (er - sr) (ec - sc)) 2) er
              sc ec maxE with _ | down
          · rw [htop, hdown] at h
            exact absurd h (by simp)
          · rw [htop, hdown] at h
            injection h with h
            subst h
            rw [List.countP_append, ih _ _ _ _ _ _ htop i j, ih _ _ _ _ _ _ hdown i j]
            apply count_split_rows
            rw [← hrow, fdiv_two_eq_ediv]
            omega
      next hrow =>
        have hmax : max (er - sr) (ec - sc) = ec - sc := by
          rcases max_choice (er - sr) (ec - sc) with hc | hc
          · exact absurd hc.symm hrow
          · exact hc
        rcases hleft : sliceMatrixF n sr er sc (sc + Int.fdiv (max (er - sr) (ec - sc)) 2)
            maxE with _ | left
        · rw [hleft] at h
          cases sliceMatrixF n sr er (sc + Int.fdiv (max (er - sr) (ec - sc)) 2) ec
              maxE <;> exact absurd h (by simp)
        · rcases hright : sliceMatrixF n sr er (sc + Int.fdiv (max (er - sr) (ec - sc)) 2) ec
              maxE with _ | right
          · rw [hleft, hright] at h
            exact absurd h (by simp)
          · rw [hleft, hright] at h
            injection h with h
            subst h
            rw [List.countP_append, ih _ _ _ _ _ _ hleft i j, ih _ _ _ _ _ _ hright i j]
            apply count_split_cols
            rw [hmax, fdiv_two_eq_ediv]
            omega

lemma sliceMatrixF_elements_le (fuel : Nat) :
    ∀ (sr er sc ec maxE : Int) (l : List MatrixSlice),
      sliceMatrixF fuel sr er sc ec maxE = some l →
      ∀ r ∈ l, (r.end_row - r.start_row) * (r.end_col - r.start_col) ≤ maxE := by
  induction fuel with
  | zero =>
    intro sr er sc ec maxE l h
    exact absurd h (by simp [sliceMatrixF])
  | succ n ih =>
    intro sr er sc ec maxE l h r hr
    simp only [sliceMatrixF] at h
    split at h
    next hbase =>
      injection h with h
      subst h
      rw [List.mem_singleton] at hr
      subst hr
      exact hbase
    next hbase =>
      split at h
      next hrow =>
        rcases htop : sliceMatrixF n sr (sr + Int.fdiv (max (er - sr) (ec - sc)) 2)
            sc ec maxE with _ | top
        · rw [htop] at h
          cases sliceMatrixF n (sr + Int.fdiv (max (er - sr) (ec - sc)) 2) er
              sc ec maxE <;> exact absurd h (by simp)
        · rcases hdown : sliceMatrixF n (sr + Int.fdiv (max (er - sr) (ec - sc)) 2) er
              sc ec maxE with _ | down
          · rw [htop, hdown] at h
            exact absurd h (by simp)
          · rw [htop, hdown] at h
            injection h with h
            subst h
            rcases List.mem_append.mp hr with hm | hm
            · exact ih _ _ _ _ _ _ htop r hm
            · exact ih _ _ _ _ _ _ hdown r hm
      next hrow =>
        rcases hleft : sliceMatrixF n sr er sc (sc + Int.fdiv (max (er - sr) (ec - sc)) 2)
            maxE with _ | left
        · rw [hleft] at h
          cases sliceMatrixF n sr er (sc + Int.fdiv (max (er - sr) (ec - sc)) 2) ec
              maxE <;> exact absurd h (by simp)
        · rcases hright : sliceMatrixF n sr er (sc + Int.fdiv (max (er - sr) (ec - sc)) 2) ec
              maxE with _ | right
          · rw [hleft, hright] at h
            exact absurd h (by simp)
          · rw [hleft, hright] at h
            injection h with h
            subst h
            rcases List.mem_append.mp hr with hm | hm
            · exact ih _ _ _ _ _ _ hleft r hm
            · exact ih _ _ _ _ _ _ hright r hm

lemma sliceMatrixF_mono (fuel : Nat) :
    ∀ (fuel2 : Nat) (sr er sc ec maxE : Int) (l : List MatrixSlice),
      fuel ≤ fuel2 → sliceMatrixF fuel sr er sc ec maxE = some l →
      sliceMatrixF fuel2 sr er sc ec maxE = some l := by
  induction fuel with
  | zero =>
    intro fuel2 sr er sc ec maxE l _ h
    exact absurd h (by simp [sliceMatrixF])
  | succ n ih =>
    intro fuel2 sr er sc ec maxE l hle h
    obtain ⟨m, rfl⟩ : ∃ m, fuel2 = m + 1 := ⟨fuel2 - 1, by omega⟩
    have hnm : n ≤ m := by omega
    simp only [sliceMatrixF] at h ⊢
    split at h
    next hbase =>
      rw [if_pos hbase]
      exact h
    next hbase =>
      rw [if_neg hbase]
      split at h
      next hrow =>
        rw [if_pos hrow]
        rcases htop : sliceMatrixF n sr (sr + Int.fdiv (max (er - sr) (ec - sc)) 2)
            sc ec maxE with _ | top
        · rw [htop] at h
          cases sliceMatrixF n (sr + Int.fdiv (max (er - sr) (ec - sc)) 2) er
              sc ec maxE <;> exact absurd h (by simp)
        · rcases hdown : sliceMatrixF n (sr + Int.fdiv (max (er - sr) (ec - sc)) 2) er
              sc ec maxE with _ | down
          · rw [htop, hdown] at h
            exact absurd h (by simp)
          · rw [htop, hdown] at h
            rw [ih m _ _ _ _ _ _ hnm htop, ih m _ _ _ _ _ _ hnm hdown]
            exact h
      next hrow =>
        rw [if_neg hrow]
        rcases hleft : sliceMatrixF n sr er sc (sc + Int.fdiv (max (er - sr) (ec - sc)) 2)
            maxE with _ | left
        · rw [hleft] at h
          cases sliceMatrixF n sr er (sc + Int.fdiv (max (er - sr) (ec - sc)) 2) ec
              maxE <;> exact absurd h (by simp)
        · rcases hright : sliceMatrixF n sr er (sc + Int.fdiv (max (er - sr) (ec - sc)) 2) ec
              maxE with _ | right
          · rw [hleft, hright] at h
            exact absurd h (by simp)
          · rw [hleft, hright] at h
            rw [ih m _ _ _ _ _ _ hnm hleft, ih m _ _ _ _ _ _ hnm hright]
            exact h

lemma sliceMatrixF_deterministic (fuel fuel2 : Nat) (sr er sc ec maxE : Int)
    (l l2 : List MatrixSlice) (h : sliceMatrixF fuel sr er sc ec maxE = some l)
    (h2 : sliceMatrixF fuel2 sr er sc ec maxE = some l2) : l2 = l := by
  rcases le_total fuel fuel2 with hle | hle
  · have hm := sliceMatrixF_mono fuel fuel2 sr er sc ec maxE l hle h
    rw [hm] at h2
    exact (Option.some.inj h2).symm
  · have hm := sliceMatrixF_mono fuel2 fuel sr er sc ec maxE l2 hle h2
    rw [hm] at h
    exact Option.some.inj h

lemma sliceMatrixF_terminates (fuel : Nat) :
    ∀ (sr er sc ec maxE : Int),
      sr ≤ er → sc ≤ ec → 1 ≤ maxE →
      ((er - sr) * (ec - sc)).toNat < fuel →
      (sliceMatrixF fuel sr er sc ec maxE).isSome = true := by
  induction fuel with
  | zero =>
    intro sr er sc ec maxE _ _ _ hf
    exact absurd hf (by omega)
  | succ n ih =>
    intro sr er sc ec maxE h1 h2 h3 hf
    simp only [sliceMatrixF]
    split
    next => rfl
    next hbase =>
      have hd1 : 0 ≤ er - sr := by omega
      have hd2 : 0 ≤ ec - sc := by omega
      have hgt : maxE < (er - sr) * (ec - sc) := lt_of_not_le hbase
      have hppos : 0 < (er - sr) * (ec - sc) :=
        lt_trans (by omega : (0 : Int) < maxE) hgt
      have hd1pos : 0 < er - sr := by
        rcases lt_or_eq_of_le hd1 with hh | hh
        · exact hh
        · exfalso
          rw [← hh, zero_mul] at hppos
          exact lt_irrefl 0 hppos
      have hd2pos : 0 < ec - sc := by
        rcases lt_or_eq_of_le hd2 with hh | hh
        · exact hh
        · exfalso
          rw [← hh, mul_zero] at hppos
          exact lt_irrefl 0 hppos
      split
      next hrow =>
        have hd2le : ec - sc ≤ er - sr := hrow ▸ le_max_right (er - sr) (ec - sc)
        have hd1ge2 : 2 ≤ er - sr := by
          by_contra hcon
          have he1 : er - sr = 1 := by omega
          have he2 : ec - sc = 1 := by omega
          rw [he1, he2, mul_one] at hgt
          omega
        have hnew : Int.fdiv (max (er - sr) (ec - sc)) 2 = (er - sr) / 2 := by
          rw [← hrow, fdiv_two_eq_ediv]
        rw [hnew]
        have hq1 : 1 ≤ (er - sr) / 2 := by omega
        have hq2 : (er - sr) / 2 < er - sr := by omega
        have htopn : (((er - sr) / 2) * (ec - sc)).toNat < n :=
          Nat.lt_of_lt_of_le
            ((Int.toNat_lt_toNat hppos).mpr (mul_lt_mul_of_pos_right hq2 hd2pos))
            (Nat.lt_succ_iff.mp hf)
        have hdownn : ((er - sr - (er - sr) / 2) * (ec - sc)).toNat < n :=
          Nat.lt_of_lt_of_le
            ((Int.toNat_lt_toNat hppos).mpr
              (mul_lt_mul_of_pos_right (by omega) hd2pos))
            (Nat.lt_succ_iff.mp hf)
        have htop := ih sr (sr + (er - sr) / 2) sc ec maxE (by omega) h2 h3
          (by rw [show sr + (er - sr) / 2 - sr = (er - sr) / 2 from by ring]; exact htopn)
        have hdown := ih (sr + (er - sr) / 2) er sc ec maxE (by omega) h2 h3
          (by rw [show er - (sr + (er - sr) / 2) = er - sr - (er - sr) / 2 from by ring]
              exact hdownn)
        obtain ⟨top, htopeq⟩ := Option.isSome_iff_exists.mp htop
        obtain ⟨down, hdowneq⟩ := Option.isSome_iff_exists.mp hdown
        rw [htopeq, hdowneq]
        rfl
      next hrow =>
        have hmax : max (er - sr) (ec - sc) = ec - sc := by
          rcases max_choice (er - sr) (ec - sc) with hc | hc
          · exact absurd hc.symm hrow
          · exact hc
        have hd1le : er - sr ≤ ec - sc := hmax ▸ le_max_left (er - sr) (ec - sc)
        have hd2ge2 : 2 ≤ ec - sc := by
          by_contra hcon
          have he2 : ec - sc = 1 := by omega
          have he1 : er - sr = 1 := by omega
          rw [he1, he2, mul_one] at hgt
          omega
        have hnew : Int.fdiv (max (er - sr) (ec - sc)) 2 = (ec - sc) / 2 := by
          rw [hmax, fdiv_two_eq_ediv]
        rw [hnew]
        have hq1 : 1 ≤ (ec - sc) / 2 := by omega
        have hq2 : (ec - sc) / 2 < ec - sc := by omega
        have hleftn : ((er - sr) * ((ec - sc) / 2)).toNat < n :=
          Nat.lt_of_lt_of_le
            ((Int.toNat_lt_toNat hppos).mpr (mul_lt_mul_of_pos_left hq2 hd1pos))
            (Nat.lt_succ_iff.mp hf)
        have hrightn : ((er - sr) * (ec - sc - (ec - sc) / 2)).toNat < n :=
          Nat.lt_of_lt_of_le
            ((Int.toNat_lt_toNat hppos).mpr
              (mul_lt_mul_of_pos_left (by omega) hd1pos))
            (Nat.lt_succ_iff.mp hf)
        have hleft := ih sr er sc (sc + (ec - sc) / 2) maxE h1 (by omega) h3
          (by rw [show sc + (ec - sc) / 2 - sc = (ec - sc) / 2 from by ring]; exact hleftn)
        have hright := ih sr er (sc + (ec - sc) / 2) ec maxE h1 (by omega) h3
          (by rw [show ec - (sc + (ec - sc) / 2) = ec - sc - (ec - sc) / 2 from by ring]
              exact hrightn)
        obtain ⟨left, hlefteq⟩ := Option.isSome_iff_exists.mp hleft
        obtain ⟨right, hrighteq⟩ := Option.isSome_iff_exists.mp hright
        rw [hlefteq, hrighteq]
        rfl

lemma sliceMatrixF_max_zero_loops : ∀ fuel : Nat, sliceMatrixF fuel 0 1 0 1 0 = none := by
  intro fuel
  induction fuel with
  | zero => rfl
  | succ n ih =>
    simp only [sliceMatrixF]
    rw [if_neg (by decide), if_pos (by decide)]
    have harg : (0 : Int) + Int.fdiv (max (1 - 0) (1 - 0)) 2 = 0 := by decide
    rw [harg, ih]
    cases sliceMatrixF n 0 0 0 1 0 <;> rfl

/-- C2: any list of rectangles returned by `slice_matrix` exactly tiles the
input rectangle — every cell of the input rectangle lies in exactly one
returned rectangle and no cell outside it lies in any — every returned
rectangle has element count at most `max_elements`, the result is
deterministic (independent of the fuel used to drive the recursion), and on
the concrete call `slice_matrix(0, 3, 0, 3, 8)` the result is exactly the
two rectangles rows `[0, 1)` and rows `[1, 3)`, each spanning all three
columns. -/
theorem slice_matrix_tiles (sr er sc ec maxE : Int) (fuel : Nat)
    (l : List MatrixSlice) (h : sliceMatrixF fuel sr er sc ec maxE = some l) :
    (∀ r ∈ l, (r.end_row - r.start_row) * (r.end_col - r.start_col) ≤ maxE) ∧
    (∀ i j : Int, (l.countP fun r => inSlice r i j) =
      if inSlice ⟨sr, er, sc, ec⟩ i j then 1 else 0) ∧
    (∀ (fuel2 : Nat) (l2 : List MatrixSlice),
      sliceMatrixF fuel2 sr er sc ec maxE = some l2 → l2 = l) ∧
    sliceMatrixF 9 0 3 0 3 8 = some [⟨0, 1, 0, 3⟩, ⟨1, 3, 0, 3⟩] :=
  ⟨sliceMatrixF_elements_le fuel sr er sc ec maxE l h,
   sliceMatrixF_countP fuel sr er sc ec maxE l h,
   fun fuel2 l2 h2 => sliceMatrixF_deterministic fuel fuel2 sr er sc ec maxE l l2 h h2,
   by decide⟩

/-- Witness for C2 at the spec's own example `slice_matrix(0, 3, 0, 3, 8)`:
cell (1, 2) is covered exactly once, the rectangles stay within 8 elements,
and the result is the documented two-rectangle split. -/
theorem slice_matrix_tiles_witness :
    (([⟨0, 1, 0, 3⟩, ⟨1, 3, 0, 3⟩] : List MatrixSlice).countP fun r => inSlice r 1 2) = 1 ∧
    (∀ r ∈ ([⟨0, 1, 0, 3⟩, ⟨1, 3, 0, 3⟩] : List MatrixSlice),
      (r.end_row - r.start_row) * (r.end_col - r.start_col) ≤ 8) ∧
    sliceMatrixF 9 0 3 0 3 8 = some [⟨0, 1, 0, 3⟩, ⟨1, 3, 0, 3⟩] := by
  have h := slice_matrix_tiles 0 3 0 3 8 9 [⟨0, 1, 0, 3⟩, ⟨1, 3, 0, 3⟩] (by decide)
  exact ⟨(h.2.1 1 2).trans (by decide), h.1, h.2.2.2⟩

/-- C10: `slice_matrix` terminates for every rectangle with non-negative
side lengths when `max_elements ≥ 1` — with fuel exceeding the element
count the fueled recursion returns a value — and the `max_elements ≥ 1`
precondition is necessary: on a 1×1 rectangle with `max_elements = 0` the
recursion never returns, whatever fuel it is given. -/
theorem slice_matrix_terminates (sr er sc ec maxE : Int) (fuel : Nat)
    (h1 : sr ≤ er) (h2 : sc ≤ ec) (h3 : 1 ≤ maxE)
    (hf : ((er - sr) * (ec - sc)).toNat < fuel) :
    (sliceMatrixF fuel sr er sc ec maxE).isSome = true ∧
    (∀ f : Nat, sliceMatrixF f 0 1 0 1 0 = none) :=
  ⟨sliceMatrixF_terminates fuel sr er sc ec maxE h1 h2 h3 hf,
   sliceMatrixF_max_zero_loops⟩

/-- Witness for C10 on the 3×3 rectangle with `max_elements = 8` and fuel 10. -/
theorem slice_matrix_terminates_witness :
    (sliceMatrixF 10 0 3 0 3 8).isSome = true ∧
    sliceMatrixF 0 0 1 0 1 0 = none :=
  ⟨(slice_matrix_terminates 0 3 0 3 8 10 (by decide) (by decide) (by decide)
      (by decide)).1,
   (slice_matrix_terminates 0 3 0 3 8 10 (by decide) (by decide) (by decide)
      (by decide)).2 0⟩

/-- Fleet entry from `routeup.schemas.route_optimizer.Fleet` as used by the
optimizer: a number of vehicles sharing one capacity. -/
structure Fleet where
  number_of_vehicles : Nat
  capacity : Nat
deriving DecidableEq, Repr

/-- Vehicle-capacity expansion from `_create_data_model`:
`[item.capacity for item in self.fleet for _ in range(item.number_of_vehicles)]`. -/
def expandFleet (fleet : List Fleet) : List Nat :=
  (fleet.map fun item => List.replicate item.number_of_vehicles item.capacity).flatten

/-- Python's builtin `max` over a list of naturals. Python raises
`ValueError` on an empty list; the optimizer only reaches this call with
a nonempty expanded capacity list (an empty one would already have raised
inside `__init__`), so the fold with base 0 is relied upon for nonempty
lists only. -/
def pyMax (l : List Nat) : Nat := l.foldl Nat.max 0

/-- Output schema of the grid search
(`routeup.schemas.route_optimizer.GridSearchOutput`). -/
structure GridSearchOutput where
  extra_time : Nat
  extra_vehicles : Fleet
  message : String
deriving DecidableEq, Repr

/-- Observable actions of `grid_search` / `_grid_search_solver` at the
solver boundary: rebuilding the model (`_create_data_model` plus
`_set_manager` plus `_set_routing`) with the given extras, and invoking
`SolveWithParameters` on the current model, with its outcome. -/
inductive GSEvent where
  | rebuild (extraVehicles extraTime : Nat)
  | solveAttempt (extraVehicles extraTime : Nat) (found : Bool)
deriving DecidableEq, BEq, Repr

/-- Time-escalation loop of `_grid_search_solver`: for `i` in
`range(1, iter_max_extra_time + 1)`, rebuild the model with
`extra_max_travel_time = i * 60`, solve, and break at the first success.
The first argument is the current iteration index, the second the number of
iterations left; the result is the trace of events and the successful `i`,
if any. The OR-Tools solver is abstracted as the oracle
`solver extraVehicles extraTime`. -/
def timeEscalationLoop (solver : Nat → Nat → Bool) : Nat → Nat → List GSEvent × Option Nat
  | _, 0 => ([], none)
  | i, rem + 1 =>
    let found := solver 0 (i * 60)
    let evs := [GSEvent.rebuild 0 (i * 60), GSEvent.solveAttempt 0 (i * 60) found]
    if found then (evs, some i)
    else
      let rest := timeEscalationLoop solver (i + 1) rem
      (evs ++ rest.1, rest.2)

/-- Vehicle-escalation loop of `_grid_search_solver`: for `i` in
`range(1, iter_max_extra_vehicle + 1)`, rebuild the model with
`extra_vehicles = i`, solve, and break at the first success. It runs after
the time loop regardless of the time loop's outcome. -/
def vehicleEscalationLoop (solver : Nat → Nat → Bool) : Nat → Nat → List GSEvent × Option Nat
  | _, 0 => ([], none)
  | i, rem + 1 =>
    let found := solver i 0
    let evs := [GSEvent.rebuild i 0, GSEvent.solveAttempt i 0 found]
    if found then (evs, some i)
    else
      let rest := vehicleEscalationLoop solver (i + 1) rem
      (evs ++ rest.1, rest.2)

/-- Embedding of `RouteOptimizer._grid_search_solver` with the default
iteration caps (3 and 3): run the time loop, then the vehicle loop, build
the message list (falling back to the no-solution message when both loops
failed), rebuild the baseline no-extras model as the final step, and return
the joined message with the recorded extras. -/
def gridSearchSolverRun (solver : Nat → Nat → Bool) (fleet : List Fleet) :
    List GSEvent × GridSearchOutput :=
  let tRes := timeEscalationLoop solver 1 3
  let vRes := vehicleEscalationLoop solver 1 3
  let messages :=
    (match tRes.2 with
      | some i => [s!"Solution can be found with {i} minutes more of extra time"]
      | none => []) ++
    (match vRes.2 with
      | some i => [s!"Solution can be found with {i} vehicle/s more \n"]
      | none => [])
  let messages2 := if messages = [] then
      ["No solution found with extra vehicles or extra time."]
    else messages
  let extraTimeOut := match tRes.2 with
    | some i => i * 60
    | none => 0
  let extraVehiclesOut := match vRes.2 with
    | some i => { number_of_vehicles := i, capacity := pyMax (expandFleet fleet) }
    | none => ({ number_of_vehicles := 0, capacity := 0 } : Fleet)
  (tRes.1 ++ vRes.1 ++ [GSEvent.rebuild 0 0],
   { extra_time := extraTimeOut, extra_vehicles := extraVehiclesOut,
     message := String.intercalate " or " messages2 })

/-- Embedding of `RouteOptimizer.grid_search`: first solve the model built
at construction time (no extras); on success return immediately with the
no-escalation message, otherwise run `_grid_search_solver`. -/
def gridSearchRun (solver : Nat → Nat → Bool) (fleet : List Fleet) :
    List GSEvent × GridSearchOutput :=
  let found := solver 0 0
  if found then
    ([GSEvent.solveAttempt 0 0 true],
     { extra_time := 0, extra_vehicles := { number_of_vehicles := 0, capacity := 0 },
       message := "Solution found without grid search" })
  else
    let rest := gridSearchSolverRun solver fleet
    (GSEvent.solveAttempt 0 0 false :: rest.1, rest.2)

/-- Number of solver invocations recorded in a trace. -/
def countSolveAttempts (evs : List GSEvent) : Nat :=
  evs.countP fun e =>
    match e with
    | GSEvent.solveAttempt _ _ _ => true
    | _ => false

lemma timeEscalationLoop_count (solver : Nat → Nat → Bool) (rem : Nat) :
    ∀ i : Nat, countSolveAttempts (timeEscalationLoop solver i rem).1 ≤ rem := by
  induction rem with
  | zero => intro i; simp [timeEscalationLoop, countSolveAttempts]
  | succ r ih =>
    intro i
    simp only [timeEscalationLoop]
    split
    · simp [countSolveAttempts, List.countP_cons]
    · have := ih (i + 1)
      simp [countSolveAttempts, List.countP_append, List.countP_cons,
        List.countP_nil] at this ⊢
      omega

lemma vehicleEscalationLoop_count (solver : Nat → Nat → Bool) (rem : Nat) :
    ∀ i : Nat, countSolveAttempts (vehicleEscalationLoop solver i rem).1 ≤ rem := by
  induction rem with
  | zero => intro i; simp [vehicleEscalationLoop, countSolveAttempts]
  | succ r ih =>
    intro i
    simp only [vehicleEscalationLoop]
    split
    · simp [countSolveAttempts, List.countP_cons]
    · have := ih (i + 1)
      simp [countSolveAttempts, List.countP_append, List.countP_cons,
        List.countP_nil] at this ⊢
      omega

lemma timeEscalationLoop_none (solver : Nat → Nat → Bool)
    (hall : ∀ t, solver 0 t = false) (rem : Nat) :
    ∀ i : Nat, (timeEscalationLoop solver i rem).2 = none := by
  induction rem with
  | zero => intro i; rfl
  | succ r ih =>
    intro i
    simp only [timeEscalationLoop, hall (i * 60)]
    simpa using ih (i + 1)

lemma vehicleEscalationLoop_none (solver : Nat → Nat → Bool)
    (hall : ∀ v, solver v 0 = false) (rem : Nat) :
    ∀ i : Nat, (vehicleEscalationLoop solver i rem).2 = none := by
  induction rem with
  | zero => intro i; rfl
  | succ r ih =>
    intro i
    simp only [vehicleEscalationLoop, hall i]
    simpa using ih (i + 1)

lemma vehicleEscalationLoop_congr (s1 s2 : Nat → Nat → Bool)
    (hagree : ∀ v, s1 v 0 = s2 v 0) (rem : Nat) :
    ∀ i : Nat, vehicleEscalationLoop s1 i rem = vehicleEscalationLoop s2 i rem := by
  induction rem with
  | zero => intro i; rfl
  | succ r ih =>
    intro i
    simp only [vehicleEscalationLoop, hagree i, ih (i + 1)]

lemma getLast?_cons_append_singleton {α : Type} (a x : α) (l : List α) :
    (a :: (l ++ [x])).getLast? = some x := by
  induction l generalizing a with
  | nil => rfl
  | cons b t ih =>
    rw [List.cons_append, List.getLast?_cons_cons]
    exact ih b

/-- C3: `grid_search` performs at most `2 * max_iters + 1 = 7` solver
invocations (one baseline attempt, at most 3 time-escalation attempts and
at most 3 vehicle-escalation attempts) and returns a `GridSearchOutput`;
the vehicle-escalation phase runs independently of the time phase — the
reported `extra_vehicles` depends only on the solver's answers with zero
extra time — and when every attempt fails the returned message is
`"No solution found with extra vehicles or extra time."`. -/
theorem grid_search_bounded (solver : Nat → Nat → Bool) (fleet : List Fleet) :
    countSolveAttempts (gridSearchRun solver fleet).1 ≤ 7 ∧
    ((∀ v t, solver v t = false) →
      (gridSearchRun solver fleet).2.message =
        "No solution found with extra vehicles or extra time.") ∧
    (∀ solver2 : Nat → Nat → Bool, (∀ v, solver v 0 = solver2 v 0) →
      (gridSearchRun solver fleet).2.extra_vehicles =
        (gridSearchRun solver2 fleet).2.extra_vehicles) := by
  refine ⟨?_, ?_, ?_⟩
  · cases hbase : solver 0 0 with
    | true => simp [gridSearchRun, hbase, countSolveAttempts, List.countP_cons]
    | false =>
      have ht := timeEscalationLoop_count solver 3 1
      have hv := vehicleEscalationLoop_count solver 3 1
      simp [gridSearchRun, gridSearchSolverRun, hbase, countSolveAttempts,
        List.countP_append, List.countP_cons] at ht hv ⊢
      omega
  · intro hall
    have hbase : solver 0 0 = false := hall 0 0
    have ht := timeEscalationLoop_none solver (fun t => hall 0 t) 3 1
    have hv := vehicleEscalationLoop_none solver (fun v => hall v 0) 3 1
    simp [gridSearchRun, gridSearchSolverRun, hbase, ht, hv]
    rfl
  · intro solver2 hagree
    have hcongr := vehicleEscalationLoop_congr solver solver2 hagree 3 1
    cases hbase : solver 0 0 with
    | true =>
      have hbase2 : solver2 0 0 = true := (hagree 0).symm.trans hbase
      simp [gridSearchRun, hbase, hbase2]
    | false =>
      have hbase2 : solver2 0 0 = false := (hagree 0).symm.trans hbase
      simp only [gridSearchRun, gridSearchSolverRun, hbase, hbase2]
      simp [hcongr]

/-- Witness for C3 on the always-infeasible solver with a two-vehicle fleet. -/
theorem grid_search_bounded_witness :
    countSolveAttempts (gridSearchRun (fun _ _ => false) [⟨2, 50⟩]).1 ≤ 7 ∧
    (gridSearchRun (fun _ _ => false) [⟨2, 50⟩]).2.message =
      "No solution found with extra vehicles or extra time." ∧
    (gridSearchRun (fun _ _ => false) [⟨2, 50⟩]).2.extra_vehicles =
      (gridSearchRun (fun v t => false) [⟨2, 50⟩]).2.extra_vehicles :=
  ⟨(grid_search_bounded (fun _ _ => false) [⟨2, 50⟩]).1,
   (grid_search_bounded (fun _ _ => false) [⟨2, 50⟩]).2.1 (fun v t => rfl),
   (grid_search_bounded (fun _ _ => false) [⟨2, 50⟩]).2.2 (fun v t => false)
     (fun v => rfl)⟩

/-- C4 counterexample: on the always-infeasible solver, the escalation run's
trace ends with the baseline rebuild event, and no trace of the run ends
with a rebuild of the baseline followed by a solve of it — the final step
rebuilds the baseline model but never re-solves it, refuting the claim that
the last step rebuilds AND re-solves. -/
theorem grid_search_final_not_resolved :
    (gridSearchRun (fun _ _ => false) [⟨1, 10⟩]).1.getLast? =
      some (GSEvent.rebuild 0 0) ∧
    List.isSuffixOf [GSEvent.rebuild 0 0, GSEvent.solveAttempt 0 0 true]
      (gridSearchRun (fun _ _ => false) [⟨1, 10⟩]).1 = false ∧
    List.isSuffixOf [GSEvent.rebuild 0 0, GSEvent.solveAttempt 0 0 false]
      (gridSearchRun (fun _ _ => false) [⟨1, 10⟩]).1 = false := by
  decide

/-- C4 (amended): on every escalation-path execution (the baseline solve
failed), the final step rebuilds the baseline no-extras model, and that
rebuild is the last event of the run — no solver invocation follows it, so
the optimizer is left holding a rebuilt but unsolved baseline model. -/
theorem grid_search_final_rebuilds_baseline (solver : Nat → Nat → Bool)
    (fleet : List Fleet) (hfail : solver 0 0 = false) :
    (gridSearchRun solver fleet).1.getLast? = some (GSEvent.rebuild 0 0) := by
  simp only [gridSearchRun, gridSearchSolverRun, hfail]
  simp only [Bool.false_eq_true, if_false]
  exact getLast?_cons_append_singleton _ _ _

/-- Witness for the amended C4 on a concrete always-infeasible solver. -/
theorem grid_search_final_rebuilds_baseline_witness :
    (gridSearchRun (fun _ _ => false) [⟨3, 7⟩]).1.getLast? =
      some (GSEvent.rebuild 0 0) :=
  grid_search_final_rebuilds_baseline (fun _ _ => false) [⟨3, 7⟩] rfl

/-- One reconstructed stop (`routeup.schemas.route_optimizer.RouteStop`):
`vehicle_occupancy` is only populated on the synthetic inbound depot stop. -/
structure RouteStop where
  stop_id : Nat
  stop_demand : Int
  vehicle_occupancy : Option Int := none
  travel_time : Int
deriving DecidableEq, Repr

/-- One vehicle's reconstructed route
(`routeup.schemas.route_optimizer.Route`). -/
structure Route where
  vehicle_capacity : Nat
  vehicle_travel_occupancy : Int
  vehicle_travel_time : Int
  route_stops : List RouteStop
deriving DecidableEq, Repr

/-- Optimizer output (`routeup.schemas.route_optimizer.RouteOptimizerOutput`). -/
structure RouteOptimizerOutput where
  max_travel_time : Int
  slack_time : Int
  routes : List Route
deriving DecidableEq, Repr

/-- Abstraction of the opaque OR-Tools routing/solution pair walked by
`_extract_output`, restricted to one vehicle: `startIndex` is
`routing.Start(vehicle_id)`, `isEnd` is `routing.IsEnd`, `indexToNode` is
`manager.IndexToNode`, `nextIndex` is `solution.Value(routing.NextVar(i))`,
`minCumulTime` is `solution.Min` of the Time dimension's cumul variable,
and `arcCost` is `routing.GetArcCostForVehicle(prev, next, vehicle_id)`. -/
structure SolverSolution where
  startIndex : Nat
  isEnd : Nat → Bool
  indexToNode : Nat → Nat
  nextIndex : Nat → Nat
  minCumulTime : Nat → Int
  arcCost : Nat → Nat → Int

/-- Fueled embedding of the `while not routing.IsEnd(index)` walk in
`_extract_output`: accumulates the visited stops (in reverse), the summed
arc costs (`route_time`) and the summed demands (`route_load`). -/
def walkVehiclePath (s : SolverSolution) (demands : Nat → Int) :
    Nat → Nat → List RouteStop → Int → Int → Option (List RouteStop × Int × Int)
  | 0, _, _, _, _ => none
  | fuel + 1, idx, acc, rtime, rload =>
    if s.isEnd idx then some (acc.reverse, rtime, rload)
    else
      let node := s.indexToNode idx
      let arrival := s.minCumulTime idx
      let rload2 := rload + demands node
      let nxt := s.nextIndex idx
      let rtime2 := rtime + s.arcCost idx nxt
      walkVehiclePath s demands fuel nxt
        ({ stop_id := node, stop_demand := demands node, vehicle_occupancy := none,
           travel_time := arrival } :: acc) rtime2 rload2

/-- Per-vehicle part of `_extract_output`: walk the vehicle's path, subtract
the folded `vehicle_penalty` once when the accumulated arc cost is positive,
and in INBOUND mode drop the leading stop (`route_stops[1:]`) and append the
synthetic depot stop carrying the final load and the net route time. -/
def extractVehicleOutput (mode : RouteMode) (vehiclePenalty : Int) (capacity : Nat)
    (s : SolverSolution) (demands : Nat → Int) (fuel : Nat) : Option Route :=
  (walkVehiclePath s demands fuel s.startIndex [] 0 0).map fun res =>
    let stops := res.1
    let rtime := res.2.1
    let rload := res.2.2
    let rtimeNet := if 0 < rtime then rtime - vehiclePenalty else rtime
    let stops2 := if mode = RouteMode.inbound then
        stops.drop 1 ++
          [{ stop_id := 0, stop_demand := 0, vehicle_occupancy := some rload,
             travel_time := rtimeNet }]
      else stops
    { vehicle_capacity := capacity, vehicle_travel_occupancy := rload,
      vehicle_travel_time := rtimeNet, route_stops := stops2 }

lemma walkVehiclePath_acc (s : SolverSolution) (demands : Nat → Int) (fuel : Nat) :
    ∀ (idx : Nat) (acc : List RouteStop) (rtime rload : Int)
      (stops : List RouteStop) (t l : Int),
      walkVehiclePath s demands fuel idx acc rtime rload = some (stops, t, l) →
      ∃ rest : List RouteStop, stops = acc.reverse ++ rest := by
  induction fuel with
  | zero =>
    intro idx acc rtime rload stops t l h
    exact absurd h (by simp [walkVehiclePath])
  | succ n ih =>
    intro idx acc rtime rload stops t l h
    simp only [walkVehiclePath] at h
    split at h
    next hend =>
      have h2 := Option.some.inj h
      have h3 : acc.reverse = stops := congrArg Prod.fst h2
      refine ⟨[], ?_⟩
      rw [← h3, List.append_nil]
    next hend =>
      obtain ⟨rest, hrest⟩ := ih _ _ _ _ _ _ _ h
      rw [List.reverse_cons, List.append_assoc] at hrest
      exact ⟨_, hrest⟩

/-- C6: for every walked vehicle path, in INBOUND mode the extracted route
drops the head of the visited stop sequence (the depot, by the solver's
convention that each vehicle starts there) and appends a synthetic final
stop with `stop_id 0`, `stop_demand 0`, `vehicle_occupancy` equal to the
final cumulative load and `travel_time` equal to the net route time — the
accumulated arc cost minus `vehicle_penalty`, subtracted exactly when the
accumulated cost is positive; in OUTBOUND mode the stop sequence is
unchanged, and under the start-at-depot convention the depot is the first
stop of every non-empty route. -/
theorem extract_output_depot_position (s : SolverSolution) (demands : Nat → Int)
    (penalty : Int) (cap : Nat) (fuel : Nat) (stops : List RouteStop)
    (rtime rload : Int)
    (hwalk : walkVehiclePath s demands fuel s.startIndex [] 0 0 =
      some (stops, rtime, rload)) :
    extractVehicleOutput RouteMode.inbound penalty cap s demands fuel = some
      { vehicle_capacity := cap, vehicle_travel_occupancy := rload,
        vehicle_travel_time := if 0 < rtime then rtime - penalty else rtime,
        route_stops := stops.drop 1 ++
          [{ stop_id := 0, stop_demand := 0, vehicle_occupancy := some rload,
             travel_time := if 0 < rtime then rtime - penalty else rtime }] } ∧
    extractVehicleOutput RouteMode.outbound penalty cap s demands fuel = some
      { vehicle_capacity := cap, vehicle_travel_occupancy := rload,
        vehicle_travel_time := if 0 < rtime then rtime - penalty else rtime,
        route_stops := stops } ∧
    (s.indexToNode s.startIndex = 0 → ∀ st ∈ stops.head?, st.stop_id = 0) := by
  refine ⟨?_, ?_, ?_⟩
  · simp [extractVehicleOutput, hwalk]
  · simp [extractVehicleOutput, hwalk]
  · intro hdepot st hst
    cases fuel with
    | zero => exact absurd hwalk (by simp [walkVehiclePath])
    | succ n =>
      simp only [walkVehiclePath] at hwalk
      split at hwalk
      next hend =>
        have h2 := Option.some.inj hwalk
        have h3 : ([] : List RouteStop).reverse = stops := congrArg Prod.fst h2
        rw [List.reverse_nil] at h3
        rw [← h3] at hst
        simp at hst
      next hend =>
        obtain ⟨rest, hrest⟩ := walkVehiclePath_acc s demands n _ _ _ _ _ _ _ hwalk
        rw [hrest] at hst
        simp at hst
        rw [← hst]
        exact hdepot

/-- Concrete three-stop solved path: depot at routing index 0, nodes visited
in index order, end marker at index 3, constant arc cost 7, cumulative time
10 per hop. -/
def demoSolution : SolverSolution :=
  { startIndex := 0
    isEnd := fun i => decide (3 ≤ i)
    indexToNode := fun i => i
    nextIndex := fun i => i + 1
    minCumulTime := fun i => 10 * (i : Int)
    arcCost := fun _ _ => 7 }

/-- Demands for the demo path: 5 passengers at stop 1, 3 at stop 2. -/
def demoDemands : Nat → Int := fun n => if n = 1 then 5 else if n = 2 then 3 else 0

/-- Stops recorded while walking the demo path. -/
def demoStops : List RouteStop :=
  [{ stop_id := 0, stop_demand := 0, travel_time := 0 },
   { stop_id := 1, stop_demand := 5, travel_time := 10 },
   { stop_id := 2, stop_demand := 3, travel_time := 20 }]

/-- Witness for C6 on the demo path with vehicle_penalty 10 and capacity 40:
accumulated arc cost 21, net time 11, final load 8. -/
theorem extract_output_depot_position_witness :
    extractVehicleOutput RouteMode.inbound 10 40 demoSolution demoDemands 10 = some
      { vehicle_capacity := 40, vehicle_travel_occupancy := 8,
        vehicle_travel_time := 11,
        route_stops := demoStops.drop 1 ++
          [{ stop_id := 0, stop_demand := 0, vehicle_occupancy := some 8,
             travel_time := 11 }] } ∧
    extractVehicleOutput RouteMode.outbound 10 40 demoSolution demoDemands 10 = some
      { vehicle_capacity := 40, vehicle_travel_occupancy := 8,
        vehicle_travel_time := 11, route_stops := demoStops } ∧
    (∀ st ∈ demoStops.head?, st.stop_id = 0) := by
  have h := extract_output_depot_position demoSolution demoDemands 10 40 10 demoStops
    21 8 (by decide)
  refine ⟨?_, ?_, h.2.2 rfl⟩
  · rw [h.1]
    decide
  · rw [h.2.1]
    decide

/-- Embedding of `optimizer_solver`'s result handling: `SolveWithParameters`
either produces an opaque solution (turned into output by
`_extract_output`) or `None`; on `None` the method logs and returns
`RouteOptimizerOutput(max_travel_time=0, routes=[], slack_time=0)` instead
of raising. -/
def optimizerSolver {σ : Type} (solution : Option σ)
    (extractOutput : σ → RouteOptimizerOutput) : RouteOptimizerOutput :=
  match solution with
  | some sol => extractOutput sol
  | none => { max_travel_time := 0, routes := [], slack_time := 0 }

/-- C7: whenever the solver reports infeasibility (no solution object),
`optimizer_solver` returns normally — for any extraction function — with an
empty routes list and zero `max_travel_time`. -/
theorem optimizer_solver_infeasible {σ : Type} (solution : Option σ)
    (extractOutput : σ → RouteOptimizerOutput) (hnone : solution = none) :
    (optimizerSolver solution extractOutput).routes = [] ∧
    (optimizerSolver solution extractOutput).max_travel_time = 0 := by
  subst hnone
  exact ⟨rfl, rfl⟩

/-- Witness for C7 at a concrete infeasible solve. -/
theorem optimizer_solver_infeasible_witness :
    (optimizerSolver (none : Option Unit) (fun _ =>
      { max_travel_time := 99, routes := [], slack_time := 1 })).routes = [] ∧
    (optimizerSolver (none : Option Unit) (fun _ =>
      { max_travel_time := 99, routes := [], slack_time := 1 })).max_travel_time = 0 :=
  optimizer_solver_infeasible (none : Option Unit) (fun _ =>
    { max_travel_time := 99, routes := [], slack_time := 1 }) rfl

/-- Request validation of `GoogleMaps._prepare_request_route`: fewer than
two stops is an invalid request; exactly two stops map to an
origin/destination call; between three and `max_route_stops` stops use
waypoints; more than `max_route_stops` stops is an invalid request. The
result is the raised `InvalidRequestFormat` message, if any. -/
def prepareRequestRoute {α : Type} (maxRouteStops : Nat) (stops : List α) :
    Option String :=
  if stops.length < 2 then some "At least two stops are required"
  else if stops.length < 3 then none
  else if 3 ≤ stops.length && stops.length ≤ maxRouteStops then none
  else some s!"Maximum number of stops is {maxRouteStops}"

/-- Result of running `GoogleMaps.get_route`'s chunking loop against a
mocked Directions API: the stop windows submitted, the number of API calls
made (one per window that passed request preparation), and the
`InvalidRequestFormat` message that aborted the loop, if any. -/
structure GetRouteResult (α : Type) where
  windows : List (List α)
  apiCalls : Nat
  error : Option String
deriving DecidableEq, Repr

/-- Fueled embedding of the `while (end_idx <= len(stops)) and (start_idx <
len(stops) - 1)` loop of `get_route`: each iteration prepares the request
for the window `stops[start_idx:end_idx]` (a raise aborts the loop before
that window's API call), calls the API, then sets
`start_idx = end_idx - 1` and
`end_idx = min(end_idx + max_route_stops, len(stops))`. -/
def getRouteLoop {α : Type} (maxRouteStops : Nat) (stops : List α) :
    Nat → Nat → Nat → Option (GetRouteResult α)
  | 0, _, _ => none
  | fuel + 1, startIdx, endIdx =>
    if endIdx ≤ stops.length ∧ startIdx < stops.length - 1 then
      let window := (stops.drop startIdx).take (endIdx - startIdx)
      match prepareRequestRoute maxRouteStops window with
      | some e => some { windows := [], apiCalls := 0, error := some e }
      | none =>
        match getRouteLoop maxRouteStops stops fuel (endIdx - 1)
            (min (endIdx + maxRouteStops) stops.length) with
        | none => none
        | some res => some ⟨window :: res.windows, res.apiCalls + 1, res.error⟩
    else some { windows := [], apiCalls := 0, error := none }

/-- Embedding of `get_route`: initialize `start_idx, end_idx = 0,
min(len(stops), max_route_stops)` and run the chunking loop. -/
def getRouteRun {α : Type} (maxRouteStops : Nat) (stops : List α) (fuel : Nat) :
    Option (GetRouteResult α) :=
  getRouteLoop maxRouteStops stops fuel 0 (min stops.length maxRouteStops)

/-- C9 counterexample: fetching a route for a single stop (or for no stops)
makes no network call but raises no invalid-request error either —
`get_route` returns an empty result instead of failing fast, because the
fewer-than-two guard lives in `_prepare_request_route`, which the skipped
loop never reaches. -/
theorem get_route_too_few_stops_no_error :
    getRouteRun 27 [(0 : Nat)] 5 =
      some { windows := [], apiCalls := 0, error := none } ∧
    getRouteRun 27 ([] : List Nat) 5 =
      some { windows := [], apiCalls := 0, error := none } := by
  decide

/-- C9 (amended): for every request with fewer than two stops, `get_route`
performs no network call, but instead of failing fast it returns an empty
route result with no error; the invalid-request error for fewer than two
stops is raised by `_prepare_request_route` when called directly, which
`get_route` never does in that case because the chunking loop is not
entered. -/
theorem get_route_too_few_stops {α : Type} (maxRouteStops : Nat)
    (stops : List α) (fuel : Nat) (hshort : stops.length < 2) (hfuel : 1 ≤ fuel) :
    getRouteRun maxRouteStops stops fuel =
      some { windows := [], apiCalls := 0, error := none } ∧
    prepareRequestRoute maxRouteStops stops =
      some "At least two stops are required" := by
  constructor
  · obtain ⟨f, rfl⟩ : ∃ f, fuel = f + 1 := ⟨fuel - 1, by omega⟩
    simp only [getRouteRun, getRouteLoop]
    rw [if_neg (by omega)]
  · simp only [prepareRequestRoute]
    rw [if_pos hshort]

/-- Witness for the amended C9 at a concrete one-stop request. -/
theorem get_route_too_few_stops_witness :
    getRouteRun 27 [(7 : Nat)] 3 =
      some { windows := [], apiCalls := 0, error := none } ∧
    prepareRequestRoute 27 [(7 : Nat)] =
      some "At least two stops are required" :=
  ⟨(get_route_too_few_stops 27 [(7 : Nat)] 3 (by decide) (by decide)).1,
   (get_route_too_few_stops 27 [(7 : Nat)] 3 (by decide) (by decide)).2⟩

/-- C5 evaluated at the failing input: with `max_route_stops = 3` and the
six-stop list `[0, 1, 2, 3, 4, 5]`, the first window `[0, 1, 2]` passes and
costs one API call, but the loop then builds the window
`stops[2:6] = [2, 3, 4, 5]` of `max_route_stops + 1 = 4` stops —
`start_idx` steps back one stop for the overlap while `end_idx` still
advances by `max_route_stops` — and `_prepare_request_route` rejects it
with `InvalidRequestFormat`, so the route fetch aborts instead of covering
the remaining stops. -/
theorem get_route_window_overflows :
    getRouteRun 3 [0, 1, 2, 3, 4, 5] 10 = some
      { windows := [[0, 1, 2]], apiCalls := 1,
        error := some "Maximum number of stops is 3" } ∧
    ((([0, 1, 2, 3, 4, 5] : List Nat).drop 2).take 4).length = 3 + 1 := by
  decide
